/-
Verification of `datascience/util.py` (percentile, plot_normal_cdf,
table_apply, minimize) against its specification.

The Python functions are shallowly embedded: numeric values are rationals,
fallible operations return `Except String`, and side-effecting plotting is
modelled by the list of fill operations it issues.
-/
import Mathlib

namespace DatascienceUtil

/-! ### Embedding of `percentile` (util.py lines 17-41)

```python
def percentile(p, arr=None):
    if arr is None:
        return lambda arr: percentile(p, arr)
    if hasattr(p, '__iter__'):
        return np.array([percentile(x, arr) for x in p])
    if p == 0:
        return min(arr)
    assert 0 < p <= 100, 'Percentile requires a percent'
    i = (p/100) * len(arr)
    return sorted(arr)[math.ceil(i) - 1]
```
-/

instance {ε α : Type} [DecidableEq ε] [DecidableEq α] : DecidableEq (Except ε α)
  | Except.ok a, Except.ok b =>
    if h : a = b then isTrue (by rw [h]) else isFalse (by intro he; cases he; exact h rfl)
  | Except.ok _, Except.error _ => isFalse (by intro h; cases h)
  | Except.error _, Except.ok _ => isFalse (by intro h; cases h)
  | Except.error e, Except.error f =>
    if h : e = f then isTrue (by rw [h]) else isFalse (by intro he; cases he; exact h rfl)

/-- Python list indexing `l[i]` with an integer index: a negative index is
taken from the end, and an out-of-range index raises `IndexError`. -/
def pyIndex (l : List ℚ) (i : ℤ) : Except String ℚ :=
  let j : ℤ := if i < 0 then i + l.length else i
  if 0 ≤ j then
    match l.get? j.toNat with
    | some v => Except.ok v
    | none => Except.error "list index out of range"
  else Except.error "list index out of range"

/-- The scalar branch of `percentile p arr` (both arguments present, `p` not a
vector).  `min(arr)` on an empty list raises a `ValueError`; the failed
`assert` raises an `AssertionError` carrying the given message; `sorted(arr)`
sorts a copy ascending. -/
def percentile (p : ℚ) (arr : List ℚ) : Except String ℚ :=
  if p = 0 then
    match arr.min? with
    | some m => Except.ok m
    | none => Except.error "min() arg is an empty sequence"
  else if 0 < p ∧ p ≤ 100 then
    pyIndex (arr.insertionSort (· ≤ ·)) (⌈(p / 100) * (arr.length : ℚ)⌉ - 1)
  else Except.error "Percentile requires a percent"

/-- The vector branch: `np.array([percentile(x, arr) for x in p])`; a failure
of any element aborts the whole call, as the list comprehension propagates
the exception. -/
def percentileVec (ps : List ℚ) (arr : List ℚ) : Except String (List ℚ) :=
  ps.mapM (fun x => percentile x arr)

/-- The value of a `percentile` call when `arr` may be omitted: either a
numeric result (or error) or, when `arr is None`, the closure
`lambda arr: percentile(p, arr)`. -/
inductive PercentileValue where
  | value : Except String ℚ → PercentileValue
  | curried : (List ℚ → Except String ℚ) → PercentileValue

/-- The full dispatch of `percentile(p, arr=None)` for scalar `p`: when `arr`
is omitted it returns the closure over `p`, otherwise the scalar result. -/
def percentileCall (p : ℚ) (arr : Option (List ℚ)) : PercentileValue :=
  match arr with
  | none => PercentileValue.curried (fun a => percentile p a)
  | some a => PercentileValue.value (percentile p a)

/-! ### Embedding of `plot_normal_cdf` (util.py lines 44-81)

```python
def plot_normal_cdf(rbound=None, lbound=None, mean=0, sd=1):
    shade = rbound is not None or lbound is not None
    shade_left = rbound is not None and lbound is not None
    inf = 3.5 * sd
    step = 0.1
    ...
    if rbound is None:
        rbound = inf + mean
    if lbound is None:
        lbound = -inf + mean
    pdf_range = np.arange(-inf + mean, inf + mean, step)
    plt.plot(...)
    cdf_range = np.arange(lbound, rbound + step, step)
    if shade:
        plt.fill_between(cdf_range, ..., color='gold')
    if shade_left:
        cdf_range = np.arange(-inf+mean, lbound + step, step)
        plt.fill_between(cdf_range, ..., color='darkblue')
    ...
```

The plotting side effect is modelled by the sequence of `plt.fill_between`
calls the function issues; each call is recorded as the x-interval it covers
(the first and last endpoints handed to `np.arange`, i.e. the region from the
range start up to the bound) together with its fill color.
-/

/-- One `plt.fill_between` call: the x-interval `[lo, hi]` it shades under
the density curve, and the fill color. -/
structure FillRegion where
  lo : ℚ
  hi : ℚ
  color : String
deriving DecidableEq

/-- The fill operations issued by `plot_normal_cdf rbound lbound mean sd`,
in the order the code issues them. -/
def plot_normal_cdf (rbound lbound : Option ℚ) (mean sd : ℚ) : List FillRegion :=
  let shade := rbound.isSome || lbound.isSome
  let shade_left := rbound.isSome && lbound.isSome
  let inf := 7/2 * sd
  let rb := match rbound with | none => inf + mean | some r => r
  let lb := match lbound with | none => -inf + mean | some l => l
  (if shade then [⟨lb, rb, "gold"⟩] else []) ++
    (if shade_left then [⟨-inf + mean, lb, "darkblue"⟩] else [])

/-! ### Embedding of `table_apply` (util.py lines 88-131)

```python
def table_apply(table, func, subset=None):
    df = table.to_df()
    if subset is not None:
        subset = np.atleast_1d(subset)
        if any([i not in df.columns for i in subset]):
            err = np.where([i not in df.columns for i in subset])[0]
            err = "Column mismatch: {0}".format([subset[i] for i in err])
            raise ValueError(err)
        for col in subset:
            df[col] = df[col].apply(func)
    else:
        df = df.apply(func)
    if isinstance(df, pd.Series):
        df = pd.DataFrame(df).T
    tab = Table.from_df(df)
    return tab
```

A table (and its DataFrame image under `to_df`) is an ordered list of named
columns.  The `ValueError` is modelled as a structured error carrying the
list of mismatched column names, exactly the names `np.where` selects (the
members of `subset`, in `subset` order, that are not among the columns).
-/

/-- A Table / DataFrame: ordered named columns of rationals. -/
structure Table where
  cols : List (String × List ℚ)
deriving DecidableEq

/-- The `ValueError("Column mismatch: [...]")` raised by `table_apply`,
carrying the mismatched column names it lists. -/
inductive TableError where
  | columnMismatch : List String → TableError
deriving DecidableEq

/-- `df.columns`. -/
def dfColumns (df : List (String × List ℚ)) : List String := df.map Prod.fst

/-- `df[col]`: the values of column `col` (empty if absent; `table_apply`
only reads columns it has checked to exist). -/
def dfGet (df : List (String × List ℚ)) (col : String) : List ℚ :=
  ((df.find? (fun nc => nc.1 = col)).map Prod.snd).getD []

/-- `df[col] = v`: replace the contents of column `col`. -/
def dfSet (df : List (String × List ℚ)) (col : String) (v : List ℚ) :
    List (String × List ℚ) :=
  df.map (fun nc => if nc.1 = col then (nc.1, v) else nc)

/-- The `subset is not None` branch of `table_apply`: validate `subset`
against the columns, then run `for col in subset: df[col] = df[col].apply(func)`
(`Series.apply` maps `func` over the column's elements). -/
def table_apply_subset (table : Table) (func : ℚ → ℚ) (subset : List String) :
    Except TableError Table :=
  let df := table.cols
  if subset.any (fun i => !(dfColumns df).contains i) then
    Except.error (TableError.columnMismatch
      (subset.filter (fun i => !(dfColumns df).contains i)))
  else
    Except.ok ⟨subset.foldl (fun d col => dfSet d col ((dfGet d col).map func)) df⟩

/-- What `func` returns when `DataFrame.apply` hands it one column: either a
single aggregate value (`func` reduces the column) or a transformed column. -/
inductive ColResult where
  | scalar : ℚ → ColResult
  | series : List ℚ → ColResult

/-- `true` iff the result is a single aggregate value. -/
def ColResult.isScalar : ColResult → Bool
  | ColResult.scalar _ => true
  | ColResult.series _ => false

/-- The `subset is None` branch of `table_apply`: `df = df.apply(func)`.
When `func` reduces every column to a scalar, pandas returns a `Series`
indexed by the column names and the code reshapes it via
`pd.DataFrame(df).T` into a one-row frame — each column keeps its name and
holds the single aggregate value.  Otherwise the per-column results form the
new columns directly. -/
def table_apply_all (table : Table) (func : List ℚ → ColResult) : Table :=
  let applied := table.cols.map (fun nc => (nc.1, func nc.2))
  if applied.all (fun nc => nc.2.isScalar) then
    ⟨applied.map (fun nc =>
      (nc.1, match nc.2 with | ColResult.scalar v => [v] | ColResult.series _ => []))⟩
  else
    ⟨applied.map (fun nc =>
      (nc.1, match nc.2 with | ColResult.scalar v => [v] | ColResult.series s => s))⟩

/-! ### Embedding of `minimize` (util.py lines 134-172)

```python
def minimize(f, start=None, smooth=False, log=None, array=False, **vargs):
    if start is None:
        assert not array, "Please pass starting values explicitly when array=True"
        arg_count = f.__code__.co_argcount
        assert arg_count > 0, "Please pass starting values explicitly for variadic functions"
        start = [0] * arg_count
    if not hasattr(start, '__len__'):
        start = [start]
    if array:
        objective = f
    else:
        @functools.wraps(f)
        def objective(args):
            return f(*args)
    if not smooth and 'method' not in vargs:
        vargs['method'] = 'Powell'
    result = optimize.minimize(objective, start, **vargs)
    if log is not None:
        log(result)
    if len(start) == 1:
        return result.x.item(0)
    else:
        return result.x
```

`scipy.optimize.minimize` is a black-box collaborator: it is a parameter
`opt` taking the objective, the starting vector and the forwarded options,
and returning either a result object or an error, which `minimize` does not
catch.  The `log` callback only observes the result object and cannot change
the return value, so it is not modelled.
-/

/-- A Python function object as `minimize` sees it: `f.__code__.co_argcount`
(the number of named positional parameters — a `*args` tail is NOT counted),
whether it is variadic (has a `*args` tail), and its value on a list of
positional arguments.  In the embedding a call `f(*args)` and a call `f(v)`
with `v` the vector of a single-vector-argument `f` are both `apply` at the
list of numbers involved, so the two calling conventions coincide. -/
structure PyFunc where
  argCount : Nat
  variadic : Bool
  apply : List ℚ → ℚ

/-- A `start` argument: a scalar (no `__len__`) or a vector. -/
inductive StartArg where
  | scalar : ℚ → StartArg
  | vec : List ℚ → StartArg

/-- The optimizer's result object; `result.x` is the minimizing vector. -/
structure OptResult where
  x : List ℚ
deriving DecidableEq

/-- An error escaping `minimize`: one of its own failed `assert`s, or an
uncaught exception from the delegated optimizer (propagated unchanged). -/
inductive MinimizeError where
  | assertionError : String → MinimizeError
  | optimizerError : String → MinimizeError
deriving DecidableEq

/-- The value `minimize` returns: `result.x.item(0)` (a scalar) when the
starting point has one element, else the vector `result.x`. -/
inductive MinimizeReturn where
  | scalar : ℚ → MinimizeReturn
  | vector : List ℚ → MinimizeReturn
deriving DecidableEq

/-- The interface of `scipy.optimize.minimize`: objective, starting vector,
forwarded named options; may fail (non-convergence, invalid options, ...). -/
def Optimizer : Type :=
  (List ℚ → ℚ) → List ℚ → List (String × String) → Except String OptResult

/-- The `start is None` inference prologue of `minimize`, producing the
starting vector (also wrapping a scalar `start` into `[start]`). -/
def startVector (f : PyFunc) (start : Option StartArg) (array : Bool) :
    Except MinimizeError (List ℚ) :=
  match start with
  | none =>
    if array then
      Except.error (MinimizeError.assertionError
        "Please pass starting values explicitly when array=True")
    else if f.argCount = 0 then
      Except.error (MinimizeError.assertionError
        "Please pass starting values explicitly for variadic functions")
    else Except.ok (List.replicate f.argCount 0)
  | some (StartArg.scalar v) => Except.ok [v]
  | some (StartArg.vec l) => Except.ok l

/-- `minimize f start smooth array vargs`, delegating to `opt`. -/
def minimize (opt : Optimizer) (f : PyFunc) (start : Option StartArg)
    (smooth : Bool) (array : Bool) (vargs : List (String × String)) :
    Except MinimizeError MinimizeReturn :=
  match startVector f start array with
  | Except.error e => Except.error e
  | Except.ok startList =>
    let objective : List ℚ → ℚ :=
      if array then f.apply else fun args => f.apply args
    let vargs' :=
      if ¬ smooth ∧ ¬ (vargs.map Prod.fst).contains "method" then
        vargs ++ [("method", "Powell")]
      else vargs
    match opt objective startList vargs' with
    | Except.error e => Except.error (MinimizeError.optimizerError e)
    | Except.ok result =>
      if startList.length = 1 then
        match result.x.head? with
        | some v => Except.ok (MinimizeReturn.scalar v)
        | none => Except.error (MinimizeError.optimizerError
            "index 0 is out of bounds")
      else Except.ok (MinimizeReturn.vector result.x)

/-! ### Facts about `percentile` -/

theorem min?_spec {l : List ℚ} {m : ℚ} (h : l.min? = some m) :
    m ∈ l ∧ ∀ x ∈ l, m ≤ x := by
  haveI anti : Std.Antisymm ((· : ℚ) ≤ ·) := ⟨fun h1 h2 => le_antisymm h1 h2⟩
  rw [List.min?_eq_some_iff (fun a => le_refl a) (fun a b => min_choice a b)
    (fun a b c => le_min_iff)] at h
  exact h

theorem pyIndex_ok {l : List ℚ} {i : ℤ} (h0 : 0 ≤ i) (h1 : i.toNat < l.length) :
    pyIndex l i = Except.ok (l.get ⟨i.toNat, h1⟩) := by
  unfold pyIndex
  have hnot : ¬ i < 0 := not_lt.mpr h0
  simp only [hnot, if_false, if_pos h0, List.get?_eq_get h1]

theorem ceil_index_bounds {p : ℚ} {n : ℕ} (h0 : 0 < p) (h1 : p ≤ 100) (hn : 0 < n) :
    0 ≤ ⌈(p / 100) * (n : ℚ)⌉ - 1 ∧ (⌈(p / 100) * (n : ℚ)⌉ - 1).toNat < n := by
  have hq : (0 : ℚ) < (p / 100) * n := by
    have hn' : (0 : ℚ) < n := by exact_mod_cast hn
    have : (0 : ℚ) < p / 100 := by positivity
    exact mul_pos this hn'
  have hceil1 : 0 < ⌈(p / 100) * (n : ℚ)⌉ := Int.ceil_pos.mpr hq
  have hle : (p / 100) * (n : ℚ) ≤ ((n : ℤ) : ℚ) := by
    have h100 : p / 100 ≤ 1 := (div_le_one (by norm_num)).mpr h1
    have := mul_le_mul_of_nonneg_right h100 (Nat.cast_nonneg (α := ℚ) n)
    push_cast
    simpa using this
  have hceiln : ⌈(p / 100) * (n : ℚ)⌉ ≤ (n : ℤ) := Int.ceil_le.mpr hle
  refine ⟨by omega, ?_⟩
  rw [Int.toNat_lt (by omega)]
  omega

theorem percentile_pos_eq {p : ℚ} (arr : List ℚ) (h0 : 0 < p) (h1 : p ≤ 100) :
    percentile p arr =
      pyIndex (arr.insertionSort (· ≤ ·)) (⌈(p / 100) * (arr.length : ℚ)⌉ - 1) := by
  unfold percentile
  rw [if_neg h0.ne', if_pos ⟨h0, h1⟩]

/-- C1: for every non-empty `arr` and `0 < p ≤ 100`, `percentile p arr`
returns the element at 0-based index `⌈(p/100)·|arr|⌉ - 1` of an
ascending-sorted copy of `arr`; in particular on `[1, 3, 5, 9]` it returns
`5` at `p = 74.9`, `5` at `p = 75` and `9` at `p = 75.1`. -/
theorem percentile_nearest_rank (p : ℚ) (arr : List ℚ) (hne : arr ≠ [])
    (h0 : 0 < p) (h1 : p ≤ 100) :
    (∃ s : List ℚ, s.Perm arr ∧ s.Sorted (· ≤ ·) ∧
      percentile p arr =
        Except.ok (s.getD (⌈(p / 100) * (arr.length : ℚ)⌉ - 1).toNat 0)) ∧
    percentile (749/10) [1, 3, 5, 9] = Except.ok 5 ∧
    percentile 75 [1, 3, 5, 9] = Except.ok 5 ∧
    percentile (751/10) [1, 3, 5, 9] = Except.ok 9 := by
  refine ⟨?_, ?_, ?_, ?_⟩
  · refine ⟨arr.insertionSort (· ≤ ·), List.perm_insertionSort _ _,
      List.sorted_insertionSort _ _, ?_⟩
    have hn : 0 < arr.length := List.length_pos.mpr hne
    obtain ⟨hge, hlt⟩ := ceil_index_bounds h0 h1 hn
    have hlt' : (⌈(p / 100) * (arr.length : ℚ)⌉ - 1).toNat <
        (arr.insertionSort (· ≤ ·)).length := by
      rwa [List.length_insertionSort]
    rw [percentile_pos_eq arr h0 h1, pyIndex_ok hge hlt',
      List.getD_eq_getElem?_getD, List.getElem?_eq_getElem hlt']
    simp [List.get_eq_getElem]
  · have h : (⌈(749:ℚ)/250⌉ : ℤ) = 3 := by norm_num [Int.ceil_eq_iff]
    norm_num [percentile, pyIndex, List.insertionSort, List.orderedInsert, h, Int.toNat_ofNat]
    rfl
  · norm_num [percentile, pyIndex, List.insertionSort, List.orderedInsert, Int.ceil_eq_iff,
      Int.toNat_ofNat]
    rfl
  · have h : (⌈(751:ℚ)/250⌉ : ℤ) = 4 := by norm_num [Int.ceil_eq_iff]
    norm_num [percentile, pyIndex, List.insertionSort, List.orderedInsert, h, Int.toNat_ofNat]
    rfl

theorem percentile_nearest_rank_witness :
    (∃ s : List ℚ, s.Perm [1, 3, 5, 9] ∧ s.Sorted (· ≤ ·) ∧
      percentile 75 [1, 3, 5, 9] =
        Except.ok (s.getD
          (⌈((75:ℚ) / 100) * ((([1, 3, 5, 9] : List ℚ).length : ℕ) : ℚ)⌉ - 1).toNat 0)) ∧
    percentile (749/10) [1, 3, 5, 9] = Except.ok 5 ∧
    percentile 75 [1, 3, 5, 9] = Except.ok 5 ∧
    percentile (751/10) [1, 3, 5, 9] = Except.ok 9 :=
  percentile_nearest_rank 75 [1, 3, 5, 9] (by simp) (by norm_num) (by norm_num)

/-- C2: on every non-empty `arr`, `percentile 0 arr` is the minimum element
of `arr` and `percentile 100 arr` is the maximum element of `arr`. -/
theorem percentile_zero_hundred (arr : List ℚ) (hne : arr ≠ []) :
    (∃ mn, percentile 0 arr = Except.ok mn ∧ mn ∈ arr ∧ ∀ x ∈ arr, mn ≤ x) ∧
    (∃ mx, percentile 100 arr = Except.ok mx ∧ mx ∈ arr ∧ ∀ x ∈ arr, x ≤ mx) := by
  constructor
  · cases h : arr.min? with
    | none => exact absurd (List.min?_eq_none_iff.mp h) hne
    | some m =>
      refine ⟨m, ?_, (min?_spec h).1, (min?_spec h).2⟩
      unfold percentile
      rw [if_pos rfl, h]
  · have h0 : (0:ℚ) < 100 := by norm_num
    have h1 : (100:ℚ) ≤ 100 := le_refl _
    have hn : 0 < arr.length := List.length_pos.mpr hne
    obtain ⟨hge, hlt⟩ := ceil_index_bounds h0 h1 hn
    have hlt' : (⌈((100:ℚ) / 100) * (arr.length : ℚ)⌉ - 1).toNat <
        (arr.insertionSort (· ≤ ·)).length := by
      rwa [List.length_insertionSort]
    refine ⟨(arr.insertionSort (· ≤ ·)).get
      ⟨(⌈((100:ℚ) / 100) * (arr.length : ℚ)⌉ - 1).toNat, hlt'⟩, ?_, ?_, ?_⟩
    · rw [percentile_pos_eq arr h0 h1, pyIndex_ok hge hlt']
    · exact (List.perm_insertionSort (· ≤ ·) arr).mem_iff.mp (List.get_mem _ _ _)
    · intro x hx
      have hx' : x ∈ arr.insertionSort (· ≤ ·) :=
        (List.perm_insertionSort (· ≤ ·) arr).mem_iff.mpr hx
      obtain ⟨i, rfl⟩ := List.mem_iff_get.mp hx'
      apply (List.sorted_insertionSort (· ≤ ·) arr).rel_get_of_le
      have hidx : ⌈((100:ℚ) / 100) * (arr.length : ℚ)⌉ = (arr.length : ℤ) := by
        norm_num [Int.ceil_natCast]
      have : (⌈((100:ℚ) / 100) * (arr.length : ℚ)⌉ - 1).toNat = arr.length - 1 := by
        omega
      have hi := i.isLt
      have hlen := List.length_insertionSort (fun x1 x2 : ℚ => x1 ≤ x2) arr
      show (i : ℕ) ≤ (⌈((100:ℚ) / 100) * (arr.length : ℚ)⌉ - 1).toNat
      omega

theorem percentile_zero_hundred_witness :
    (∃ mn, percentile 0 [4, 2, 7] = Except.ok mn ∧ mn ∈ ([4, 2, 7] : List ℚ) ∧
      ∀ x ∈ ([4, 2, 7] : List ℚ), mn ≤ x) ∧
    (∃ mx, percentile 100 [4, 2, 7] = Except.ok mx ∧ mx ∈ ([4, 2, 7] : List ℚ) ∧
      ∀ x ∈ ([4, 2, 7] : List ℚ), x ≤ mx) :=
  percentile_zero_hundred [4, 2, 7] (by simp)

/-- C3: for every `p`, calling `percentile` with `arr` omitted returns a
function `g` with `g arr = percentile p arr` for every `arr` — the same
value a direct two-argument call produces.  The embedding is pure, so the
returned closure depends on nothing but `p`. -/
theorem percentile_curried_agrees (p : ℚ) :
    ∃ g : List ℚ → Except String ℚ,
      percentileCall p none = PercentileValue.curried g ∧
      ∀ arr : List ℚ, PercentileValue.value (g arr) = percentileCall p (some arr) :=
  ⟨fun a => percentile p a, rfl, fun _ => rfl⟩

/-- C4: for every scalar `p` outside `(0, 100]` that is not `0`, and every
`arr`, `percentile p arr` fails with the assertion message
"Percentile requires a percent" and returns no value. -/
theorem percentile_requires_percent (p : ℚ) (arr : List ℚ) (hp0 : p ≠ 0)
    (hp : ¬ (0 < p ∧ p ≤ 100)) :
    percentile p arr = Except.error "Percentile requires a percent" := by
  unfold percentile
  rw [if_neg hp0, if_neg hp]

theorem percentile_requires_percent_witness :
    percentile (-1) [1, 2] = Except.error "Percentile requires a percent" ∧
    percentile 150 [1, 2] = Except.error "Percentile requires a percent" :=
  ⟨percentile_requires_percent (-1) [1, 2] (by norm_num) (by norm_num),
   percentile_requires_percent 150 [1, 2] (by norm_num) (by norm_num)⟩

/-- C10: for every non-empty `arr` and `0 ≤ p ≤ 100`, the scalar result of
`percentile p arr` is an element of `arr` itself (no interpolation). -/
theorem percentile_mem (p : ℚ) (arr : List ℚ) (hne : arr ≠ [])
    (h0 : 0 ≤ p) (h1 : p ≤ 100) :
    ∃ v, percentile p arr = Except.ok v ∧ v ∈ arr := by
  rcases eq_or_lt_of_le h0 with h | h
  · obtain ⟨⟨mn, hmn, hmem, _⟩, _⟩ := percentile_zero_hundred arr hne
    exact ⟨mn, h ▸ hmn, hmem⟩
  · have hn : 0 < arr.length := List.length_pos.mpr hne
    obtain ⟨hge, hlt⟩ := ceil_index_bounds h h1 hn
    have hlt' : (⌈(p / 100) * (arr.length : ℚ)⌉ - 1).toNat <
        (arr.insertionSort (· ≤ ·)).length := by
      rwa [List.length_insertionSort]
    refine ⟨_, by rw [percentile_pos_eq arr h h1, pyIndex_ok hge hlt'], ?_⟩
    exact (List.perm_insertionSort (· ≤ ·) arr).mem_iff.mp (List.get_mem _ _ _)

theorem percentile_mem_witness :
    ∃ v, percentile 40 [4, 2, 7] = Except.ok v ∧ v ∈ ([4, 2, 7] : List ℚ) :=
  percentile_mem 40 [4, 2, 7] (by simp) (by norm_num) (by norm_num)

/-! ### Facts about `table_apply` -/

/-- C5: if some identifier of `subset` is not a column of the table,
`table_apply` raises a `ValueError` naming exactly the missing identifiers
in the order they appear in `subset`, and returns no table. -/
theorem table_apply_subset_mismatch (table : Table) (func : ℚ → ℚ)
    (subset : List String) (h : ∃ i ∈ subset, i ∉ dfColumns table.cols) :
    table_apply_subset table func subset =
      Except.error (TableError.columnMismatch
        (subset.filter (fun i => !(dfColumns table.cols).contains i))) ∧
    ∀ t, table_apply_subset table func subset ≠ Except.ok t := by
  have hany : subset.any (fun i => !(dfColumns table.cols).contains i) = true := by
    obtain ⟨i, hi, hni⟩ := h
    rw [List.any_eq_true]
    exact ⟨i, hi, by simpa using hni⟩
  have heq : table_apply_subset table func subset =
      Except.error (TableError.columnMismatch
        (subset.filter (fun i => !(dfColumns table.cols).contains i))) := by
    unfold table_apply_subset
    rw [if_pos hany]
  exact ⟨heq, fun t ht => by rw [heq] at ht; cases ht⟩

theorem table_apply_subset_mismatch_witness :
    (table_apply_subset ⟨[("a", [1, 2]), ("b", [3, 4])]⟩ (fun x => x + 1) ["a", "z"] =
      Except.error (TableError.columnMismatch
        (["a", "z"].filter
          (fun i => !(dfColumns (⟨[("a", [1, 2]), ("b", [3, 4])]⟩ : Table).cols).contains i))) ∧
    ∀ t, table_apply_subset ⟨[("a", [1, 2]), ("b", [3, 4])]⟩ (fun x => x + 1) ["a", "z"] ≠
      Except.ok t) ∧
    ["a", "z"].filter
      (fun i => !(dfColumns (⟨[("a", [1, 2]), ("b", [3, 4])]⟩ : Table).cols).contains i) = ["z"] :=
  ⟨table_apply_subset_mismatch ⟨[("a", [1, 2]), ("b", [3, 4])]⟩ (fun x => x + 1) ["a", "z"]
    ⟨"z", by simp, by simp [dfColumns]⟩, by simp [dfColumns]⟩

/-- C6: when `subset` is omitted and `func` reduces every column to a single
aggregate value, the result keeps every original column name in place, has
the same number of columns, and every column holds exactly one value (a
one-row table). -/
theorem table_apply_all_reducing (table : Table) (func : List ℚ → ColResult)
    (hred : ∀ c, (func c).isScalar = true) :
    dfColumns (table_apply_all table func).cols = dfColumns table.cols ∧
    (table_apply_all table func).cols.length = table.cols.length ∧
    ∀ nc ∈ (table_apply_all table func).cols, nc.2.length = 1 := by
  have hall : (table.cols.map (fun nc => (nc.1, func nc.2))).all
      (fun nc => nc.2.isScalar) = true := by
    rw [List.all_eq_true]
    intro nc hnc
    obtain ⟨orig, _, rfl⟩ := List.mem_map.mp hnc
    exact hred orig.2
  unfold table_apply_all
  rw [if_pos hall]
  refine ⟨?_, by simp, ?_⟩
  · simp only [dfColumns, List.map_map]
    rfl
  · intro nc hnc
    simp only [List.map_map, List.mem_map] at hnc
    obtain ⟨orig, _, rfl⟩ := hnc
    have := hred orig.2
    cases hf : func orig.2 with
    | scalar v => simp [Function.comp, hf]
    | series s => rw [hf] at this; cases this

theorem table_apply_all_reducing_witness :
    dfColumns (table_apply_all ⟨[("a", [1, 2]), ("b", [3, 4])]⟩
      (fun c => ColResult.scalar c.sum)).cols =
        dfColumns (⟨[("a", [1, 2]), ("b", [3, 4])]⟩ : Table).cols ∧
    (table_apply_all ⟨[("a", [1, 2]), ("b", [3, 4])]⟩
      (fun c => ColResult.scalar c.sum)).cols.length =
        (⟨[("a", [1, 2]), ("b", [3, 4])]⟩ : Table).cols.length ∧
    ∀ nc ∈ (table_apply_all ⟨[("a", [1, 2]), ("b", [3, 4])]⟩
      (fun c => ColResult.scalar c.sum)).cols, nc.2.length = 1 :=
  table_apply_all_reducing ⟨[("a", [1, 2]), ("b", [3, 4])]⟩
    (fun c => ColResult.scalar c.sum) (fun _ => rfl)

/-! ### Facts about `minimize` -/

/-- C7 counterexample: a variadic objective (one declared positional
parameter followed by a `*args` tail, so `co_argcount = 1`) with `start`
omitted does NOT fail: `minimize` infers the one-element starting vector
`[0]` and completes, returning the optimizer's answer. -/
theorem minimize_variadic_completes :
    (PyFunc.mk 1 true (fun _ => 0)).variadic = true ∧
    minimize (fun _ s _ => Except.ok ⟨s⟩) (PyFunc.mk 1 true (fun _ => 0))
      none false false [] = Except.ok (MinimizeReturn.scalar 0) :=
  ⟨rfl, rfl⟩

/-- C7 (amended): with `start` omitted, `minimize` fails with an assertion
when `array = true`, and when `f.__code__.co_argcount = 0` (the count of
named positional parameters — zero both for zero-argument functions and for
purely variadic ones, the cases the inference cannot handle); any failure of
the delegated optimizer propagates unchanged. -/
theorem minimize_start_contract (opt : Optimizer) (f : PyFunc) (smooth : Bool)
    (vargs : List (String × String)) :
    minimize opt f none smooth true vargs =
      Except.error (MinimizeError.assertionError
        "Please pass starting values explicitly when array=True") ∧
    (f.argCount = 0 →
      minimize opt f none smooth false vargs =
        Except.error (MinimizeError.assertionError
          "Please pass starting values explicitly for variadic functions")) ∧
    ∀ (e : String) (start : Option StartArg) (array : Bool) (sL : List ℚ),
      startVector f start array = Except.ok sL →
      (∀ g s m, opt g s m = Except.error e) →
      minimize opt f start smooth array vargs =
        Except.error (MinimizeError.optimizerError e) := by
  refine ⟨?_, ?_, ?_⟩
  · simp [minimize, startVector]
  · intro h0
    simp [minimize, startVector, h0]
  · intro e start array sL hs hopt
    unfold minimize
    rw [hs]
    simp only [hopt]

theorem minimize_start_contract_witness :
    minimize (fun _ _ _ => Except.error "optimizer blew up")
      (PyFunc.mk 2 false (fun _ => 0)) (some (StartArg.scalar 5)) false false [] =
      Except.error (MinimizeError.optimizerError "optimizer blew up") :=
  (minimize_start_contract (fun _ _ _ => Except.error "optimizer blew up")
      (PyFunc.mk 2 false (fun _ => 0)) false []).2.2
    "optimizer blew up" (some (StartArg.scalar 5)) false [5] rfl (fun _ _ _ => rfl)

/-- C8: for every completing call, the return value is the single minimizing
scalar unwrapped from `result.x` when the (wrapped or inferred) starting
point has exactly one element, and the whole vector `result.x` otherwise. -/
theorem minimize_result_shape (opt : Optimizer) (f : PyFunc)
    (start : Option StartArg) (smooth array : Bool)
    (vargs : List (String × String)) (r : OptResult) (sL : List ℚ) (v : ℚ)
    (hs : startVector f start array = Except.ok sL)
    (hopt : ∀ g s m, opt g s m = Except.ok r)
    (hx : r.x.head? = some v) :
    minimize opt f start smooth array vargs =
      Except.ok (if sL.length = 1 then MinimizeReturn.scalar v
        else MinimizeReturn.vector r.x) := by
  unfold minimize
  rw [hs]
  simp only [hopt]
  by_cases h1 : sL.length = 1
  · simp [h1, hx]
  · simp [h1]

theorem minimize_result_shape_witness :
    minimize (fun _ _ _ => Except.ok ⟨[3, 4]⟩) (PyFunc.mk 2 false (fun _ => 0))
      (some (StartArg.vec [1, 2])) false false [] =
      Except.ok (if ([1, 2] : List ℚ).length = 1 then MinimizeReturn.scalar 3
        else MinimizeReturn.vector [3, 4]) :=
  minimize_result_shape (fun _ _ _ => Except.ok ⟨[3, 4]⟩)
    (PyFunc.mk 2 false (fun _ => 0)) (some (StartArg.vec [1, 2])) false false []
    ⟨[3, 4]⟩ [1, 2] 3 rfl (fun _ _ _ => rfl) rfl

/-! ### Facts about `plot_normal_cdf` -/

/-- C9: with both bounds given, exactly the two fills `[lbound, rbound]`
(gold) and `[window-left, lbound]` (dark blue) are issued — distinct
regions whose domains meet only at `lbound`; with no bound, no fill is
issued; with only `rbound`, exactly one fill from the window's left edge
(`mean - 3.5·sd`, the finite stand-in for `-∞`) up to `rbound`. -/
theorem plot_normal_cdf_fill_regions (mean sd lb rb : ℚ)
    (h1 : -(7/2 * sd) + mean < lb) (h2 : lb < rb) :
    plot_normal_cdf (some rb) (some lb) mean sd =
      [⟨lb, rb, "gold"⟩, ⟨-(7/2 * sd) + mean, lb, "darkblue"⟩] ∧
    (⟨lb, rb, "gold"⟩ : FillRegion) ≠ ⟨-(7/2 * sd) + mean, lb, "darkblue"⟩ ∧
    Set.Icc (-(7/2 * sd) + mean) lb ∩ Set.Icc lb rb = {lb} ∧
    plot_normal_cdf none none mean sd = [] ∧
    plot_normal_cdf (some rb) none mean sd =
      [⟨-(7/2 * sd) + mean, rb, "gold"⟩] := by
  refine ⟨rfl, ?_, Set.Icc_inter_Icc_eq_singleton h1.le h2.le, rfl, rfl⟩
  intro hcontra
  have hc : "gold" = "darkblue" := congrArg FillRegion.color hcontra
  exact absurd hc (by decide)

theorem plot_normal_cdf_fill_regions_witness :
    plot_normal_cdf (some 1) (some (-1)) 0 1 =
      [⟨-1, 1, "gold"⟩, ⟨-(7/2 * 1) + 0, -1, "darkblue"⟩] ∧
    (⟨-1, 1, "gold"⟩ : FillRegion) ≠ ⟨-(7/2 * 1) + 0, -1, "darkblue"⟩ ∧
    Set.Icc (-(7/2 * 1) + 0 : ℚ) (-1) ∩ Set.Icc (-1 : ℚ) 1 = {-1} ∧
    plot_normal_cdf none none 0 1 = [] ∧
    plot_normal_cdf (some 1) none 0 1 = [⟨-(7/2 * 1) + 0, 1, "gold"⟩] :=
  plot_normal_cdf_fill_regions 0 1 (-1) 1 (by norm_num) (by norm_num)

end DatascienceUtil
